import Mathlib

/-!
Verification of the Android Gradle run pipeline of `briefcase`
(`src/briefcase/platforms/android/gradle.py`).

The development embeds, as executable Lean definitions:

* the log-line classifier `android_log_clean_filter` together with the
  backtracking semantics of the module-level regular expression
  `ANDROID_LOG_PREFIX_REGEX` (a specialised matcher, since the pattern is
  fixed), working on `List Char`;
* the PID polling loop of `GradleRunCommand.run_app` (`resolvePid`);
* the effectful control flow of `GradleRunCommand.run_app` and of the
  `GradleRunCommand.forward_ports` context manager, as a trace-producing
  monad over an environment that decides which ADB calls succeed.
-/

namespace Gradle

/-! ## Log line classifier

The source regex is

  `(?:ANSI)*[A-Z]/(?P<tag>.*?): (?P<content>.*?(?=\x1B|$))(?:ANSI)*`

used with `re.match` (anchored at the start, a partial match suffices).
`ANSI` abbreviates `ANSI_ESC_SEQ_RE_DEF`.  The matcher below implements this
pattern directly.  Backtracking never changes the greedy/lazy choices here:
each ANSI escape sequence starts with ESC (which `[A-Z]` cannot match) and is
parsed deterministically, so the leading star is a deterministic "strip while
possible"; the lazy `tag` group tries the earliest `": "` split whose
remainder matches; the lazy `content` group stops at the first position whose
lookahead (an ESC character, or `$`) holds; and the trailing ANSI star can
always match zero occurrences, so it never constrains the match. -/

/-- Modelled from the spec: `ANSI_ESC_SEQ_RE_DEF` lives in
`briefcase/console.py`, which is not part of the provided source.  The spec
describes it as matching one ANSI escape sequence, as used for colouring
(e.g. ESC `[32m`).  We model the standard ECMA-48 form: ESC followed either
by a single byte in `@`..`Z` or `\`..`_`, or by a CSI sequence: `[`,
parameter bytes `0`..`?`, intermediate bytes ` `..`/`, and a final byte in
`@`..`~`.  `stripAnsi1 cs` removes one leading ANSI escape sequence from
`cs`, or returns `none` if `cs` does not start with one.  The alternatives
have disjoint first characters and the CSI byte classes are disjoint, so the
parse is deterministic. -/
def stripAnsi1 : List Char → Option (List Char)
  | c :: d :: rest =>
    if c = '\x1B' then
      if d = '[' then
        match (rest.dropWhile fun e => '0' ≤ e && e ≤ '?').dropWhile
            (fun e => ' ' ≤ e && e ≤ '/') with
        | f :: r5 => if '@' ≤ f && f ≤ '~' then some r5 else none
        | [] => none
      else if ('@' ≤ d && d ≤ 'Z') || ('\\' ≤ d && d ≤ '_') then some rest
      else none
    else none
  | _ => none

/-- Greedy `(?:ANSI)*`: repeatedly strip a leading ANSI escape sequence.
Structural recursion on a fuel argument; every successful strip consumes at
least two characters, so fuel `cs.length` (used by `stripAnsiStar`) is never
exhausted. -/
def stripAnsiStarF : Nat → List Char → List Char
  | 0, cs => cs
  | n + 1, cs =>
    match stripAnsi1 cs with
    | some rest => stripAnsiStarF n rest
    | none => cs

/-- The leading `(?:ANSI)*` of `ANDROID_LOG_PREFIX_REGEX`. -/
def stripAnsiStar (cs : List Char) : List Char :=
  stripAnsiStarF cs.length cs

/-- The lazy content group `(?P<content>.*?(?=\x1B|$))` of
`ANDROID_LOG_PREFIX_REGEX`: starting from the current position, the shortest
run of non-newline characters whose end is at an ESC character or satisfies
`$` (end of string, or just before a single trailing newline).  Returns
`(content, rest)` on success.  A newline anywhere but in final position makes
the group unmatchable (`.` cannot cross it and the lookahead fails there). -/
def contentMatch : List Char → Option (List Char × List Char)
  | [] => some ([], [])
  | c :: cs =>
    if c = '\x1B' then some ([], c :: cs)
    else if c = '\n' then (if cs.isEmpty then some ([], [c]) else none)
    else
      match contentMatch cs with
      | some (con, rest) => some (c :: con, rest)
      | none => none

/-- One attempt of the tag/content split at the current position: matches the
literal `": "` followed by the content group.  (The trailing `(?:ANSI)*` of
the regex can always match zero occurrences under `re.match`, so it never
affects success or the captured groups.) -/
def trySep : List Char → Option (List Char)
  | c :: d :: rest =>
    if c = ':' ∧ d = ' ' then (contentMatch rest).map Prod.fst else none
  | _ => none

/-- The lazy tag group `(?P<tag>.*?)` followed by `": "` and the content
group: try the split at the earliest position first; on failure of the
remainder, let the tag absorb one more (non-newline) character.  Returns
`(tag, content)`. -/
def tagScan : List Char → Option (List Char × List Char)
  | [] => none
  | c :: cs =>
    match trySep (c :: cs) with
    | some con => some ([], con)
    | none =>
      if c = '\n' then none
      else
        match tagScan cs with
        | some (tag, con) => some (c :: tag, con)
        | none => none

/-- `ANDROID_LOG_PREFIX_REGEX.match line`, returning the captured
`(tag, content)` groups on success (source: `gradle.py`, lines 42-44). -/
def androidLogPrefixMatch (cs : List Char) : Option (List Char × List Char) :=
  match stripAnsiStar cs with
  | c :: d :: rest =>
    if ('A' ≤ c && c ≤ 'Z') && d = '/' then tagScan rest else none
  | _ => none

/-- Core of `android_log_clean_filter` on character lists (source:
`gradle.py`, lines 47-65): on a regex match, return the captured content and
whether the tag is one of the sentinel tags `python.stdout`/`python.stderr`;
otherwise return the line unchanged and `false`.  The function is total: the
Python body (a regex match, a dict lookup and a set membership test) cannot
raise. -/
def androidLogCleanFilterCore (line : List Char) : List Char × Bool :=
  match androidLogPrefixMatch line with
  | some (tag, content) =>
    (content, tag == "python.stdout".toList || tag == "python.stderr".toList)
  | none => (line, false)

/-- `android_log_clean_filter` on strings. -/
def android_log_clean_filter (line : String) : String × Bool :=
  ((androidLogCleanFilterCore line.toList).1.asString,
    (androidLogCleanFilterCore line.toList).2)

/-! ## Process identity resolution

Source (`gradle.py`, lines 460-468):

  pid = None
  fail_time = datetime.datetime.now() + datetime.timedelta(seconds=5)
  while not pid and datetime.datetime.now() < fail_time:
      pid = adb.pidof(package, quiet=2)
      if not pid:
          time.sleep(0.01)

Time is modelled in milliseconds as `Nat`; `f t` is the result of an
`adb.pidof` poll issued at time `t` (`none` covers both an empty string and
`None`, the two falsy results of `pidof`).  The deadline `failTime` is
computed once, just after the launch command returns (time `t`), and is never
recomputed, so the budget runs from the launch moment.  Each unsuccessful
poll sleeps `pollInterval` before the next; the poll itself is modelled as
instantaneous. -/

/-- The polling interval, `time.sleep(0.01)` = 10 ms. -/
def pollInterval : Nat := 10

/-- The PID budget, `timedelta(seconds=5)` = 5000 ms. -/
def pidTimeout : Nat := 5000

/-- The polling loop of `GradleRunCommand.run_app`: at current time `t`,
while no pid has been found and `t < failTime`, poll; return the first
non-empty result, or `none` once the deadline has passed. -/
def resolvePid (f : Nat → Option Nat) (t failTime : Nat) : Option Nat :=
  if t < failTime then
    match f t with
    | some p => some p
    | none => resolvePid f (t + pollInterval) failTime
  else none
termination_by failTime - t
decreasing_by simp only [pollInterval]; omega

/-! ## The run orchestration

`GradleRunCommand.run_app` and `GradleRunCommand.forward_ports` are embedded
in a trace monad: a computation consumes the trace of ADB/SDK calls made so
far and returns the extended trace together with a result that is either a
value or an error.  An environment decides which calls succeed; a failing
call raises, which propagates like a Python exception (short-circuiting the
rest of the computation) unless explicitly handled.  Console output
(`console.info`/`console.error`/wait bars) performs no device interaction
and is not traced. -/

/-- One external call made by `run_app` / `forward_ports`. -/
inductive AdbCall where
  /-- `self.tools.android_sdk.select_target_device(device_or_avd)` -/
  | selectTarget
  /-- `self.tools.android_sdk.create_emulator()` -/
  | createEmulator
  /-- `self.tools.android_sdk.verify_avd(avd)` -/
  | verifyAvd
  /-- `self.tools.android_sdk.start_emulator(avd, extra_emulator_args)` -/
  | startEmulator
  /-- `adb.force_stop_app(package)` -/
  | forceStop
  /-- `adb.install_apk(self.binary_path(app))` -/
  | installApk
  /-- `adb.datetime()` (captures `device_start_time`) -/
  | datetime
  /-- `adb.start_app(package, "org.beeware.android.MainActivity", passthrough)` -/
  | startApp
  /-- `adb.forward(p, p)` -/
  | forward (p : Nat)
  /-- `adb.reverse(p, p)` -/
  | reverse (p : Nat)
  /-- `adb.forward_remove(p)` -/
  | forwardRemove (p : Nat)
  /-- `adb.reverse_remove(p)` -/
  | reverseRemove (p : Nat)
  /-- `adb.logcat(pid=pid)` -/
  | logcat (pid : Nat)
  /-- `self._stream_app_logs(...)`: the streaming/classification phase -/
  | streamLogs (pid : Nat)
  /-- `adb.logcat_tail(since=device_start_time)` -/
  | logcatTail
  /-- `adb.kill()` -/
  | kill
  deriving DecidableEq

/-- How a run terminates abnormally. -/
inductive RunError where
  /-- An external call raised (device/tool failure, or, for a blocking call,
  an external cancellation such as `KeyboardInterrupt` delivered during it). -/
  | callFailed (c : AdbCall)
  /-- `raise BriefcaseCommandError(f"Problem starting app ...")` -/
  | commandError
  /-- Cancellation delivered inside the wrapped operation of a scope. -/
  | cancelled
  deriving DecidableEq

/-- The result of a traced computation. -/
inductive RRes (α : Type) where
  | ok (a : α)
  | err (e : RunError)
  deriving DecidableEq

/-- A traced computation: extends the trace of calls made so far and either
returns a value or raises. -/
def M (α : Type) : Type := List AdbCall → List AdbCall × RRes α

/-- Return without calling anything. -/
def mpure (a : α) : M α := fun tr => (tr, .ok a)

/-- Sequencing with Python exception semantics: a raised error skips the
continuation. -/
def mbind (x : M α) (f : α → M β) : M β := fun tr =>
  match x tr with
  | (tr', .ok a) => f a tr'
  | (tr', .err e) => (tr', .err e)

/-- Raise `BriefcaseCommandError`. -/
def mraise : M α := fun tr => (tr, .err .commandError)

/-- The environment a run executes against. -/
structure Env where
  /-- Does this external call succeed? -/
  ok : AdbCall → Bool
  /-- Result of an `adb.pidof` poll at a given time after launch. -/
  pidofAt : Nat → Option Nat
  /-- Did `select_target_device` return a concrete device id? -/
  selDevice : Bool
  /-- Did `select_target_device` return an AVD name? -/
  selAvd : Bool

/-- Perform one external call: it is always recorded in the trace (it was
attempted); it raises when the environment says so. -/
def call (env : Env) (c : AdbCall) : M Unit := fun tr =>
  (tr ++ [c], if env.ok c then .ok () else .err (.callFailed c))

/-- Perform a list of calls in order, stopping at the first failure. -/
def callEach (env : Env) : List AdbCall → M Unit
  | [] => mpure ()
  | c :: cs => mbind (call env c) fun _ => callEach env cs

/-- `GradleRunCommand.forward_ports` (source: `gradle.py`, lines 507-527), a
`contextlib.contextmanager` applied to a wrapped operation `body`:

  for port in forward_ports: adb.forward(port, port)
  for port in reverse_ports: adb.reverse(port, port)
  yield
  for port in forward_ports: adb.forward_remove(port)
  for port in reverse_ports: adb.reverse_remove(port)

The `yield` is not wrapped in `try`/`finally`, so an exception (or a
cancellation) raised by the body propagates from the `yield` statement and
the generator never reaches the removal loops; this sequential embedding has
exactly that behaviour, since `mbind` short-circuits on an error. -/
def forward_ports (env : Env) (fps rps : List Nat) (body : M α) : M α :=
  mbind (callEach env (fps.map .forward)) fun _ =>
  mbind (callEach env (rps.map .reverse)) fun _ =>
  mbind body fun a =>
  mbind (callEach env (fps.map .forwardRemove)) fun _ =>
  mbind (callEach env (rps.map .reverseRemove)) fun _ =>
  mpure a

/-- The device-selection phase of `run_app` (source: `gradle.py`, lines
399-421), which runs before the `try` block:

  device, name, avd = select_target_device(device_or_avd)
  if device is None:
      if avd is None: avd = create_emulator()
      else: verify_avd(avd)
      device, name = start_emulator(avd, extra_emulator_args)
-/
def selectPhase (env : Env) : M Unit :=
  mbind (call env .selectTarget) fun _ =>
  if env.selDevice then mpure ()
  else
    mbind (if env.selAvd then call env .verifyAvd else call env .createEmulator)
      fun _ => call env .startEmulator

/-- The body of the `try` block of `run_app` (source: `gradle.py`, lines
423-500): force-stop, install, then inside the `forward_ports` scope launch
the activity (capturing `device_start_time` first), poll for the PID, and
either stream the logs (PID found) or dump the raw log since
`device_start_time` and raise `BriefcaseCommandError` (PID not found). -/
def launchBody (env : Env) (fps rps : List Nat) : M Unit :=
  mbind (call env .forceStop) fun _ =>
  mbind (call env .installApk) fun _ =>
  forward_ports env fps rps
    (mbind (call env .datetime) fun _ =>
     mbind (call env .startApp) fun _ =>
     match resolvePid env.pidofAt 0 pidTimeout with
     | some p =>
       mbind (call env (.logcat p)) fun _ => call env (.streamLogs p)
     | none =>
       mbind (call env .logcatTail) fun _ => mraise)

/-- The `try`/`finally` of `run_app` (source: `gradle.py`, lines 502-505):

  finally:
      if shutdown_on_exit:
          adb.kill()

Python `finally` semantics: the `finally` suite runs on every outcome of the
body; an exception raised inside it replaces the body's outcome. -/
def withShutdown (env : Env) (shutdown_on_exit : Bool) (body : M α) : M α :=
  fun tr =>
    match body tr with
    | (tr', .ok a) =>
      if shutdown_on_exit then
        match call env .kill tr' with
        | (tr'', .ok _) => (tr'', .ok a)
        | (tr'', .err e) => (tr'', .err e)
      else (tr', .ok a)
    | (tr', .err e) =>
      if shutdown_on_exit then
        match call env .kill tr' with
        | (tr'', .ok _) => (tr'', .err e)
        | (tr'', .err e2) => (tr'', .err e2)
      else (tr', .err e)

/-- `GradleRunCommand.run_app` (source: `gradle.py`, lines 377-505):
device selection (outside the `try`), then the launch session body guarded
by the `shutdown_on_exit` `finally`. -/
def run_app (env : Env) (shutdown_on_exit : Bool) (fps rps : List Nat) :
    M Unit :=
  mbind (selectPhase env) fun _ =>
  withShutdown env shutdown_on_exit (launchBody env fps rps)

/-! ## Concrete environments and bodies used as test inputs -/

/-- An environment in which every external call succeeds and the PID is
never found. -/
def allOkEnv : Env :=
  { ok := fun _ => true, pidofAt := fun _ => none,
    selDevice := true, selAvd := false }

/-- A wrapped operation that raises (an exception inside the scope, or a
cancellation delivered there). -/
def cancelBody : M Unit := fun tr => (tr, .err .cancelled)

/-- A wrapped operation that completes normally. -/
def okBody : M Unit := mpure ()

/-- An environment in which `adb.forward_remove(8080)` raises and every
other call succeeds. -/
def failRemoveEnv : Env :=
  { ok := fun c => decide (c ≠ .forwardRemove 8080),
    pidofAt := fun _ => none, selDevice := true, selAvd := false }

/-- An environment in which `select_target_device` raises. -/
def badSelectEnv : Env :=
  { ok := fun c => decide (c ≠ .selectTarget),
    pidofAt := fun _ => none, selDevice := true, selAvd := false }

/-- An environment in which `adb.install_apk` raises and every other call
succeeds. -/
def failInstallEnv : Env :=
  { ok := fun c => decide (c ≠ .installApk),
    pidofAt := fun _ => none, selDevice := true, selAvd := false }

/-- The family of environments in which every external call succeeds, with
an arbitrary PID oracle (the target is a running physical device). -/
def happyEnv (pidf : Nat → Option Nat) : Env :=
  { ok := fun _ => true, pidofAt := pidf, selDevice := true, selAvd := false }

/-- Does a character list contain the separator `": "`? -/
def hasSep : List Char → Bool
  | c :: d :: cs => (c == ':' && d == ' ') || hasSep (d :: cs)
  | _ => false

/-- The number of (possibly overlapping) occurrences of the separator
`": "` in a character list. -/
def sepCount : List Char → Nat
  | c :: d :: cs => (if c = ':' ∧ d = ' ' then 1 else 0) + sepCount (d :: cs)
  | _ => 0

/-! ## Helper lemmas about the classifier -/

/-- On a non-matching line the classifier returns the line unchanged with
`include = false`. -/
theorem cleanFilter_nomatch (line : String)
    (h : androidLogPrefixMatch line.toList = none) :
    android_log_clean_filter line = (line, false) := by
  simp only [android_log_clean_filter, androidLogCleanFilterCore, h]
  rfl

/-! ## Claims about the log line classifier -/

/-- C3: for every raw log line on which `ANDROID_LOG_PREFIX_REGEX` matches,
`android_log_clean_filter` returns the captured content with `include` true
if and only if the captured tag is `python.stdout` or `python.stderr`; in
particular `classify "I/python.stdout: Hello world" = ("Hello world", true)`
and classifying the colour-wrapped line ESC`[32m` `I/python.stderr: oops`
ESC`[0m` gives `("oops", true)`. -/
theorem classifier_content_and_sentinel_tags :
    (∀ line tag content,
        androidLogPrefixMatch line = some (tag, content) →
        androidLogCleanFilterCore line =
          (content,
            tag == "python.stdout".toList || tag == "python.stderr".toList)) ∧
    android_log_clean_filter "I/python.stdout: Hello world" =
      ("Hello world", true) ∧
    android_log_clean_filter "\x1B[32mI/python.stderr: oops\x1B[0m" =
      ("oops", true) := by
  refine ⟨?_, by decide, by decide⟩
  intro line tag content h
  simp only [androidLogCleanFilterCore, h]

/-- Witness for C3: the universal part evaluated on the system line
`W/ActivityManager: Some warning`, whose tag is not a sentinel. -/
theorem classifier_content_and_sentinel_tags_witness :
    androidLogCleanFilterCore "W/ActivityManager: Some warning".toList =
      ("Some warning".toList, false) :=
  classifier_content_and_sentinel_tags.1
    "W/ActivityManager: Some warning".toList
    "ActivityManager".toList "Some warning".toList (by decide)

/-- C4: on every input line on which the regex does not match, the
classifier returns the input line unchanged together with `include = false`.
The classifier is a total function of the input line (the Python body — one
regex match, a group lookup and a set membership test — cannot raise), so
classification failure always degrades to "not included". -/
theorem classifier_nonmatching_passthrough (line : String)
    (h : androidLogPrefixMatch line.toList = none) :
    android_log_clean_filter line = (line, false) :=
  cleanFilter_nomatch line h

/-- Witness for C4: a line with no `LEVEL/` prefix. -/
theorem classifier_nonmatching_passthrough_witness :
    android_log_clean_filter "Some warning" = ("Some warning", false) :=
  classifier_nonmatching_passthrough "Some warning" (by decide)

/-- C5 counterexample: the claim says that whenever the classifier returns
`include = false`, the returned content is a fixed point of classification.
It is not: the matching line `I/foo: W/bar: baz` has the non-sentinel tag
`foo`, so the classifier returns `("W/bar: baz", false)`, but classifying
`W/bar: baz` again strips its prefix and yields `("baz", false)`, a
different content. -/
theorem classifier_fixed_point_counterexample :
    Gradle.android_log_clean_filter "I/foo: W/bar: baz" =
      ("W/bar: baz", false) ∧
    Gradle.android_log_clean_filter "W/bar: baz" = ("baz", false) ∧
    ("baz" : String) ≠ "W/bar: baz" := by
  decide

/-- C5 as amended: for every input line on which the regex does not match
(so the classifier returns the line unchanged with `include = false`),
applying the classifier a second time to the returned content yields the
same result again — the non-matching output is a fixed point of
classification. -/
theorem classifier_nonmatching_fixed_point (line : String)
    (h : androidLogPrefixMatch line.toList = none) :
    android_log_clean_filter ((android_log_clean_filter line).1) =
      android_log_clean_filter line := by
  have h2 := cleanFilter_nomatch line h
  rw [h2]
  exact h2

/-- Witness for the amended C5: a kernel-style line. -/
theorem classifier_nonmatching_fixed_point_witness :
    android_log_clean_filter ((android_log_clean_filter "[kernel] avc: denied").1) =
      android_log_clean_filter "[kernel] avc: denied" :=
  classifier_nonmatching_fixed_point "[kernel] avc: denied" (by decide)

/-- A list not starting with ESC has no leading ANSI escape sequence. -/
theorem stripAnsiStar_of_ne_esc (c : Char) (cs : List Char)
    (h : c ≠ '\x1B') : stripAnsiStar (c :: cs) = c :: cs := by
  cases cs with
  | nil => rfl
  | cons d ds => simp [stripAnsiStar, stripAnsiStarF, stripAnsi1, h]

/-- The content group consumes a whole ESC-free, newline-free suffix. -/
theorem contentMatch_clean (r : List Char)
    (hr : ∀ c ∈ r, c ≠ '\x1B' ∧ c ≠ '\n') :
    contentMatch r = some (r, []) := by
  induction r with
  | nil => rfl
  | cons c cs ih =>
    have hc := hr c (List.mem_cons_self c cs)
    simp [contentMatch, hc.1, hc.2,
      ih fun d hd => hr d (List.mem_cons_of_mem c hd)]

/-- The separator `": "` inside a list implies `hasSep`. -/
theorem hasSep_tail (c : Char) (t : List Char) (h : hasSep (c :: t) = false) :
    hasSep t = false := by
  cases t with
  | nil => rfl
  | cons d t' =>
    simp only [hasSep, Bool.or_eq_false_iff] at h
    exact h.2

/-- One step of the lazy tag scan when the separator attempt fails at the
current position. -/
theorem tagScan_cons_none (c : Char) (cs : List Char)
    (h1 : trySep (c :: cs) = none) (h2 : c ≠ '\n') :
    tagScan (c :: cs) =
      match tagScan cs with
      | some (tag, con) => some (c :: tag, con)
      | none => none := by
  simp only [tagScan, h1, h2, if_false]

/-- The lazy tag group splits an ESC-free, newline-free text at its first
`": "`: scanning `t ++ ": " ++ r` where `t` contains no `": "`, the tag is
`t` and the content is all of `r`. -/
theorem tagScan_clean (t r : List Char)
    (hsep : hasSep t = false)
    (ht : ∀ c ∈ t, c ≠ '\x1B' ∧ c ≠ '\n')
    (hr : ∀ c ∈ r, c ≠ '\x1B' ∧ c ≠ '\n') :
    tagScan (t ++ ':' :: ' ' :: r) = some (t, r) := by
  induction t with
  | nil =>
    simp [tagScan, trySep, contentMatch_clean r hr]
  | cons c t' ih =>
    have hcn : c ≠ '\n' := (ht c (List.mem_cons_self c t')).2
    have ht' : ∀ d ∈ t', d ≠ '\x1B' ∧ d ≠ '\n' :=
      fun d hd => ht d (List.mem_cons_of_mem c hd)
    have ihr := ih (hasSep_tail c t' hsep) ht'
    have hts : trySep (c :: (t' ++ ':' :: ' ' :: r)) = none := by
      cases t' with
      | nil =>
        simp only [List.nil_append, trySep]
        exact if_neg fun hcd => absurd hcd.2 (by decide)
      | cons d t'' =>
        have hnd : ¬(c = ':' ∧ d = ' ') := by
          intro hcd
          rw [hcd.1, hcd.2] at hsep
          simp [hasSep] at hsep
        simp only [List.cons_append, trySep]
        exact if_neg hnd
    rw [List.cons_append, tagScan_cons_none c _ hts hcn, ihr]

/-- `androidLogPrefixMatch` on a clean, canonical line
`LEVEL / tag ": " content`. -/
theorem prefixMatch_clean (L : Char) (t r : List Char)
    (hL : 'A' ≤ L ∧ L ≤ 'Z')
    (hsep : hasSep t = false)
    (ht : ∀ c ∈ t, c ≠ '\x1B' ∧ c ≠ '\n')
    (hr : ∀ c ∈ r, c ≠ '\x1B' ∧ c ≠ '\n') :
    androidLogPrefixMatch (L :: '/' :: (t ++ ':' :: ' ' :: r)) =
      some (t, r) := by
  have hLne : L ≠ '\x1B' := by
    intro hc
    rw [hc] at hL
    exact absurd hL.1 (by decide)
  rw [androidLogPrefixMatch, stripAnsiStar_of_ne_esc L _ hLne]
  simp [hL.1, hL.2, tagScan_clean t r hsep ht hr]

/-- C10 counterexample: the claim says that for a line `LEVEL/text` with
more than one `": "`, the content is everything after the first `": "`.  On
`I/t: a: `ESC`b` (whose text `t: a: `ESC`b` contains two separators) the
content group of the regex stops at the ESC character, so the classifier
returns content `"a: "`, not everything after the first separator
(`"a: \x1Bb"`). -/
theorem lazy_tag_counterexample :
    Gradle.sepCount "t: a: \x1Bb".toList = 2 ∧
    Gradle.android_log_clean_filter "I/t: a: \x1Bb" = ("a: ", false) ∧
    ("a: " : String) ≠ "a: \x1Bb" := by
  decide

/-- C10 as amended: the tag is matched lazily.  For every line of the form
`LEVEL/text` where the text contains neither ESC nor a newline and contains
more than one occurrence of the separator `": "` — written below as
`t ++ ": " ++ r` with `t` separator-free and `r` containing a separator —
the tag is the text before the first `": "` and the content is everything
after it, so the content may itself contain `": "`; e.g.
`classify "I/python.stdout: a: b" = ("a: b", true)`. -/
theorem lazy_tag_first_separator :
    (∀ (L : Char) (t r : List Char),
        'A' ≤ L ∧ L ≤ 'Z' →
        hasSep t = false →
        (∀ c ∈ t, c ≠ '\x1B' ∧ c ≠ '\n') →
        (∀ c ∈ r, c ≠ '\x1B' ∧ c ≠ '\n') →
        hasSep r = true →
        androidLogCleanFilterCore (L :: '/' :: (t ++ ':' :: ' ' :: r)) =
          (r, t == "python.stdout".toList || t == "python.stderr".toList)) ∧
    android_log_clean_filter "I/python.stdout: a: b" = ("a: b", true) := by
  refine ⟨?_, by decide⟩
  intro L t r hL hsep ht hr _hr2
  simp only [androidLogCleanFilterCore, prefixMatch_clean L t r hL hsep ht hr]

/-- Witness for the amended C10: the line `I/a: b: c`, whose text has two
separators; the tag is `a` and the content `b: c`. -/
theorem lazy_tag_first_separator_witness :
    androidLogCleanFilterCore ('I' :: '/' :: ("a".toList ++ ':' :: ' ' ::
        "b: c".toList)) =
      ("b: c".toList,
        "a".toList == "python.stdout".toList ||
          "a".toList == "python.stderr".toList) :=
  lazy_tag_first_separator.1 'I' "a".toList "b: c".toList (by decide)
    (by decide) (by decide) (by decide) (by decide)

/-! ## Decomposition of a successful match (claim C7) -/

/-- What a successful content match says about the input: the content is the
ESC-free part up to the first ESC character, or up to the end of the line
(allowing the `$`-before-final-newline convention of the Python regex). -/
theorem contentMatch_decomp (cs con rest : List Char)
    (h : contentMatch cs = some (con, rest)) :
    cs = con ++ rest ∧ '\x1B' ∉ con ∧
      (rest = [] ∨ (∃ rs, rest = '\x1B' :: rs) ∨ rest = ['\n']) := by
  induction cs generalizing con rest with
  | nil =>
    simp only [contentMatch, Option.some.injEq, Prod.mk.injEq] at h
    rw [← h.1, ← h.2]
    exact ⟨rfl, by simp, Or.inl rfl⟩
  | cons c cs ih =>
    simp only [contentMatch] at h
    by_cases hesc : c = '\x1B'
    · rw [if_pos hesc] at h
      simp only [Option.some.injEq, Prod.mk.injEq] at h
      rw [← h.1, ← h.2]
      exact ⟨rfl, by simp, Or.inr (Or.inl ⟨cs, by rw [hesc]⟩)⟩
    · rw [if_neg hesc] at h
      by_cases hnl : c = '\n'
      · rw [if_pos hnl] at h
        by_cases hemp : cs.isEmpty
        · rw [if_pos hemp] at h
          simp only [Option.some.injEq, Prod.mk.injEq] at h
          rw [← h.1, ← h.2]
          rw [List.isEmpty_iff] at hemp
          subst hemp
          exact ⟨rfl, by simp, Or.inr (Or.inr (by rw [hnl]))⟩
        · rw [if_neg hemp] at h
          exact absurd h (by simp)
      · rw [if_neg hnl] at h
        cases hm : contentMatch cs with
        | none => rw [hm] at h; exact absurd h (by simp)
        | some pr =>
          obtain ⟨con', rest'⟩ := pr
          rw [hm] at h
          simp only [Option.some.injEq, Prod.mk.injEq] at h
          obtain ⟨hd, he, hmem⟩ := ih con' rest' hm
          rw [← h.1, ← h.2]
          refine ⟨by rw [List.cons_append, hd], ?_, hmem⟩
          simp only [List.mem_cons, not_or]
          exact ⟨fun hc => hesc hc.symm, he⟩

/-- What a successful tag scan says about the input: it splits as
`tag ++ ": " ++ content ++ rest`, with the content group succeeding on the
part after the separator. -/
theorem tagScan_decomp (cs : List Char) :
    ∀ tag con, tagScan cs = some (tag, con) →
    ∃ rest, cs = tag ++ ':' :: ' ' :: (con ++ rest) ∧
      contentMatch (con ++ rest) = some (con, rest) := by
  induction cs with
  | nil => intro tag con h; exact absurd h (by simp [tagScan])
  | cons c cs ih =>
    intro tag con h
    simp only [tagScan] at h
    cases hts : trySep (c :: cs) with
    | some con' =>
      rw [hts] at h
      simp only [Option.some.injEq, Prod.mk.injEq] at h
      obtain ⟨htag, hcon⟩ := h
      subst htag
      subst hcon
      cases cs with
      | nil => exact absurd hts (by simp [trySep])
      | cons d rest2 =>
        simp only [trySep] at hts
        by_cases hcd : c = ':' ∧ d = ' '
        · rw [if_pos hcd] at hts
          rw [Option.map_eq_some'] at hts
          obtain ⟨⟨con2, rest3⟩, hcm, hfst⟩ := hts
          simp only at hfst
          subst hfst
          obtain ⟨hd2, _, _⟩ := contentMatch_decomp rest2 con2 rest3 hcm
          subst hd2
          exact ⟨rest3, by rw [hcd.1, hcd.2]; rfl, hcm⟩
        · rw [if_neg hcd] at hts
          exact absurd hts (by simp)
    | none =>
      rw [hts] at h
      by_cases hnl : c = '\n'
      · rw [if_pos hnl] at h
        exact absurd h (by simp)
      · rw [if_neg hnl] at h
        cases hsc : tagScan cs with
        | none => rw [hsc] at h; exact absurd h (by simp)
        | some pr =>
          obtain ⟨tag', con'⟩ := pr
          rw [hsc] at h
          simp only [Option.some.injEq, Prod.mk.injEq] at h
          obtain ⟨rest, hdec, hcm⟩ := ih tag' con' hsc
          refine ⟨rest, ?_, by rw [← h.2]; exact hcm⟩
          rw [← h.1, ← h.2, List.cons_append, hdec]

/-- A single stripped ANSI escape sequence is a nonempty prefix. -/
theorem stripAnsi1_decomp (cs rest : List Char)
    (h : stripAnsi1 cs = some rest) :
    ∃ p, p ≠ [] ∧ cs = p ++ rest := by
  match cs with
  | [] => exact absurd h (by simp [stripAnsi1])
  | [c] => exact absurd h (by simp [stripAnsi1])
  | c :: d :: cs' =>
    simp only [stripAnsi1] at h
    by_cases hesc : c = '\x1B'
    · rw [if_pos hesc] at h
      by_cases hbr : d = '['
      · rw [if_pos hbr] at h
        cases hdw : (cs'.dropWhile fun e => '0' ≤ e && e ≤ '?').dropWhile
            (fun e => ' ' ≤ e && e ≤ '/') with
        | nil => rw [hdw] at h; exact absurd h (by simp)
        | cons f r5 =>
          rw [hdw] at h
          have h : (if ('@' ≤ f && f ≤ '~') = true then some r5 else none) =
              some rest := h
          by_cases hf : ('@' ≤ f && f ≤ '~') = true
          · rw [if_pos hf] at h
            simp only [Option.some.injEq] at h
            refine ⟨c :: d :: (cs'.takeWhile fun e => '0' ≤ e && e ≤ '?') ++
              ((cs'.dropWhile fun e => '0' ≤ e && e ≤ '?').takeWhile
                fun e => ' ' ≤ e && e ≤ '/') ++ [f], by simp, ?_⟩
            rw [← h]
            simp only [List.cons_append, List.cons.injEq, true_and]
            rw [List.append_assoc, List.append_assoc, List.singleton_append,
              ← hdw, List.takeWhile_append_dropWhile,
              List.takeWhile_append_dropWhile]
          · rw [if_neg hf] at h
            exact absurd h (by simp)
      · rw [if_neg hbr] at h
        by_cases hd2 : (('@' ≤ d && d ≤ 'Z') || ('\\' ≤ d && d ≤ '_')) = true
        · rw [if_pos hd2] at h
          simp only [Option.some.injEq] at h
          exact ⟨[c, d], by simp, by rw [← h]; rfl⟩
        · rw [if_neg hd2] at h
          exact absurd h (by simp)
    · rw [if_neg hesc] at h
      exact absurd h (by simp)

/-- The stripped ANSI prefix is a prefix of the line. -/
theorem stripAnsiStarF_decomp (n : Nat) :
    ∀ cs : List Char, ∃ p, cs = p ++ stripAnsiStarF n cs := by
  induction n with
  | zero => intro cs; exact ⟨[], rfl⟩
  | succ n ih =>
    intro cs
    simp only [stripAnsiStarF]
    cases h1 : stripAnsi1 cs with
    | none => exact ⟨[], rfl⟩
    | some rest =>
      obtain ⟨p, _, hcs⟩ := stripAnsi1_decomp cs rest h1
      obtain ⟨q, hq⟩ := ih rest
      exact ⟨p ++ q, by rw [List.append_assoc, ← hq, hcs]⟩

/-- What a successful prefix match says about the whole line. -/
theorem prefixMatch_decomp (line tag con : List Char)
    (h : androidLogPrefixMatch line = some (tag, con)) :
    '\x1B' ∉ con ∧
      ∃ pre rest, line = pre ++ tag ++ ':' :: ' ' :: (con ++ rest) ∧
        (rest = [] ∨ (∃ rs, rest = '\x1B' :: rs) ∨ rest = ['\n']) := by
  unfold androidLogPrefixMatch at h
  rcases hS : stripAnsiStar line with _ | ⟨c, _ | ⟨d, rest0⟩⟩ <;> rw [hS] at h
  · exact absurd h (by simp)
  · exact absurd h (by simp)
  · have h : (if (('A' ≤ c && c ≤ 'Z') && d = '/') = true then tagScan rest0
        else none) = some (tag, con) := h
    by_cases hc : (('A' ≤ c && c ≤ 'Z') && d = '/') = true
    · rw [if_pos hc] at h
      obtain ⟨rest, hdec, hcm⟩ := tagScan_decomp rest0 tag con h
      obtain ⟨_, hesc, hshape⟩ := contentMatch_decomp _ con rest hcm
      obtain ⟨p, hp⟩ := stripAnsiStarF_decomp line.length line
      rw [stripAnsiStar] at hS
      refine ⟨hesc, p ++ [c, d], rest, ?_, hshape⟩
      rw [hp, hS, hdec]
      simp
    · rw [if_neg hc] at h
      exact absurd h (by simp)

/-- C7: for every matching log line, the captured content is exactly the
substring from just after the `tag ++ ": "` separator up to the first ESC
character after the tag — the point where the next ANSI escape sequence (or
a stray ESC) begins — or to the end of the line, never up to a later one:
the content contains no ESC and the remainder of the line is empty (possibly
a sole trailing newline, which `$` accepts) or starts with ESC.  A line with
empty content after the tag separator classifies to the empty string with
its tag evaluated normally. -/
theorem content_stops_at_first_escape :
    (∀ line tag con,
        androidLogPrefixMatch line = some (tag, con) →
        '\x1B' ∉ con ∧
          ∃ pre rest, line = pre ++ tag ++ ':' :: ' ' :: (con ++ rest) ∧
            (rest = [] ∨ (∃ rs, rest = '\x1B' :: rs) ∨ rest = ['\n'])) ∧
    android_log_clean_filter "I/python.stdout: " = ("", true) ∧
    android_log_clean_filter "I/python.stdout: a\x1B[31mb\x1B[0mc" =
      ("a", true) := by
  exact ⟨prefixMatch_decomp, by decide, by decide⟩

/-- Witness for C7: the line `I/x: hi` ESC `[0m`. -/
theorem content_stops_at_first_escape_witness :
    '\x1B' ∉ "hi".toList ∧
      ∃ pre rest,
        "I/x: hi\x1B[0m".toList =
          pre ++ "x".toList ++ ':' :: ' ' :: ("hi".toList ++ rest) ∧
        (rest = [] ∨ (∃ rs, rest = '\x1B' :: rs) ∨ rest = ['\n']) :=
  content_stops_at_first_escape.1 "I/x: hi\x1B[0m".toList "x".toList
    "hi".toList (by decide)

/-! ## The PID polling loop (claim C6) -/

/-- If every poll fails, the loop returns `none`. -/
theorem resolvePid_const_none (t ft : Nat) :
    resolvePid (fun _ => none) t ft = none := by
  rw [resolvePid.eq_def]
  split
  · exact resolvePid_const_none (t + pollInterval) ft
  · rfl
termination_by ft - t
decreasing_by simp only [pollInterval]; omega

/-- A successful resolution comes from the first successful poll: all
earlier polls were attempted and failed, and the successful poll happened
strictly before the deadline. -/
theorem resolvePid_some_spec (f : Nat → Option Nat) (t ft p : Nat)
    (h : resolvePid f t ft = some p) :
    ∃ k, t + k * pollInterval < ft ∧ f (t + k * pollInterval) = some p ∧
      ∀ j, j < k → f (t + j * pollInterval) = none := by
  rw [resolvePid.eq_def] at h
  by_cases hlt : t < ft
  · rw [if_pos hlt] at h
    cases hf : f t with
    | some q =>
      rw [hf] at h
      simp only [Option.some.injEq] at h
      refine ⟨0, by simpa using hlt, ?_, fun j hj => absurd hj (by omega)⟩
      simp only [Nat.zero_mul, Nat.add_zero]
      rw [hf, h]
    | none =>
      rw [hf] at h
      obtain ⟨k, h1, h2, h3⟩ := resolvePid_some_spec f (t + pollInterval) ft p h
      have heq : t + (k + 1) * pollInterval =
          t + pollInterval + k * pollInterval := by ring
      refine ⟨k + 1, by rw [heq]; exact h1, by rw [heq]; exact h2, ?_⟩
      intro j hj
      cases j with
      | zero => simpa using hf
      | succ j' =>
        have heq' : t + (j' + 1) * pollInterval =
            t + pollInterval + j' * pollInterval := by ring
        rw [heq']
        exact h3 j' (by omega)
  · rw [if_neg hlt] at h
    exact absurd h (by simp)
termination_by ft - t
decreasing_by simp only [pollInterval]; omega

/-- A `none` result means every poll inside the budget was attempted and
failed: the loop only gives up once the deadline `ft`, fixed at entry, has
passed — never earlier. -/
theorem resolvePid_none_spec (f : Nat → Option Nat) (t ft : Nat)
    (h : resolvePid f t ft = none) :
    ∀ k, t + k * pollInterval < ft → f (t + k * pollInterval) = none := by
  intro k hk
  have hlt : t < ft := lt_of_le_of_lt (Nat.le_add_right t _) hk
  rw [resolvePid.eq_def, if_pos hlt] at h
  cases hf : f t with
  | some q => rw [hf] at h; exact absurd h (by simp)
  | none =>
    rw [hf] at h
    cases k with
    | zero => simpa using hf
    | succ k' =>
      have heq : t + (k' + 1) * pollInterval =
          t + pollInterval + k' * pollInterval := by ring
      rw [heq]
      exact resolvePid_none_spec f (t + pollInterval) ft h k' (heq ▸ hk)
termination_by ft - t
decreasing_by simp only [pollInterval]; omega

/-- C6: the PID resolution polls `pidof` repeatedly, sleeping the fixed
interval between unsuccessful polls; it stops on the first non-empty pid,
and yields no pid only when the fixed budget, measured from the launch
moment (the deadline is a parameter fixed at entry, never recomputed from a
poll), has elapsed — never earlier: on a `none` result every poll time
inside the budget was actually tried and failed. -/
theorem pid_resolution_budget :
    (∀ (f : Nat → Option Nat) (t ft p : Nat),
        resolvePid f t ft = some p →
        ∃ k, t + k * pollInterval < ft ∧ f (t + k * pollInterval) = some p ∧
          ∀ j, j < k → f (t + j * pollInterval) = none) ∧
    (∀ (f : Nat → Option Nat) (t ft : Nat),
        resolvePid f t ft = none →
        ∀ k, t + k * pollInterval < ft → f (t + k * pollInterval) = none) :=
  ⟨resolvePid_some_spec, resolvePid_none_spec⟩

/-- Witness for C6: a device on which the first poll already sees the pid,
and a device on which the pid never appears. -/
theorem pid_resolution_budget_witness :
    (∃ k, 0 + k * pollInterval < pidTimeout ∧
        (fun _ : Nat => some 42) (0 + k * pollInterval) = some 42 ∧
        ∀ j, j < k → (fun _ : Nat => some 42) (0 + j * pollInterval) = none) ∧
    (∀ k, 0 + k * pollInterval < pidTimeout →
        (fun _ : Nat => (none : Option Nat)) (0 + k * pollInterval) = none) :=
  ⟨pid_resolution_budget.1 (fun _ => some 42) 0 pidTimeout 42 (by
      rw [resolvePid.eq_def]; simp [pidTimeout]),
    pid_resolution_budget.2 (fun _ => none) 0 pidTimeout
      (resolvePid_const_none 0 pidTimeout)⟩

/-! ## Helper lemmas about the run orchestration -/

/-- A sequence of calls that all succeed appends itself to the trace. -/
theorem callEach_ok (env : Env) (cs : List AdbCall)
    (h : ∀ c ∈ cs, env.ok c = true) (tr : List AdbCall) :
    callEach env cs tr = (tr ++ cs, .ok ()) := by
  induction cs generalizing tr with
  | nil => simp [callEach, mpure]
  | cons c cs ih =>
    have hc : env.ok c = true := h c (List.mem_cons_self c cs)
    simp only [callEach, mbind, call, hc, if_true]
    rw [ih (fun d hd => h d (List.mem_cons_of_mem c hd)) (tr ++ [c])]
    simp

/-- `callEach` in an all-calls-succeed environment. -/
theorem callEach_happy (pidf : Nat → Option Nat) (cs tr : List AdbCall) :
    callEach (happyEnv pidf) cs tr = (tr ++ cs, .ok ()) :=
  callEach_ok _ cs (fun _ _ => rfl) tr

/-- The launch-session body when all device calls succeed but the PID never
resolves: the ports are established (and, by the missing `try`/`finally`,
never removed), the log tail since `device_start_time` is dumped, and
`BriefcaseCommandError` is raised. -/
theorem launchBody_nopid (pidf : Nat → Option Nat)
    (hpid : resolvePid pidf 0 pidTimeout = none)
    (fps rps : List Nat) (tr : List AdbCall) :
    launchBody (happyEnv pidf) fps rps tr =
      (tr ++ [.forceStop, .installApk] ++ fps.map .forward ++
        rps.map .reverse ++ [.datetime, .startApp, .logcatTail],
        .err .commandError) := by
  simp only [launchBody, forward_ports, mbind, call, mpure, mraise, happyEnv,
    hpid, if_true]
  simp [callEach_ok]

/-- The selection phase, when the selection and emulator calls succeed,
extends the trace and returns normally. -/
theorem selectPhase_ok (env : Env)
    (h1 : env.ok .selectTarget = true) (h2 : env.ok .createEmulator = true)
    (h3 : env.ok .verifyAvd = true) (h4 : env.ok .startEmulator = true)
    (tr : List AdbCall) :
    ∃ st, selectPhase env tr = (tr ++ st, .ok ()) := by
  simp only [selectPhase, mbind, call, h1, if_true]
  cases hd : env.selDevice
  · cases ha : env.selAvd
    · refine ⟨[.selectTarget, .createEmulator, .startEmulator], ?_⟩
      simp [mbind, call, h2, h4]
    · refine ⟨[.selectTarget, .verifyAvd, .startEmulator], ?_⟩
      simp [mbind, call, h3, h4]
  · exact ⟨[.selectTarget], by simp [mpure]⟩

/-! ## Claims about the orchestrator -/

/-- C8: whenever PID resolution yields no pid within the budget (and the
device calls themselves succeed), the orchestrator's trace is exactly:
selection, force-stop, install, port setup, `datetime` (capturing
`device_start_time` just before launch), launch, then the raw log dump
`logcat_tail`, followed only by the optional shutdown; the run fails with
`BriefcaseCommandError`, and no log-stream classification or streaming call
(`logcat`/`_stream_app_logs`) ever appears in the trace. -/
theorem nopid_dumps_log_and_fails (pidf : Nat → Option Nat)
    (hpid : resolvePid pidf 0 pidTimeout = none)
    (flag : Bool) (fps rps : List Nat) :
    run_app (happyEnv pidf) flag fps rps [] =
      ([.selectTarget, .forceStop, .installApk] ++ fps.map .forward ++
        rps.map .reverse ++ [.datetime, .startApp, .logcatTail] ++
        (if flag then [.kill] else []), .err .commandError) ∧
    ∀ p, AdbCall.streamLogs p ∉ (run_app (happyEnv pidf) flag fps rps []).1 ∧
      AdbCall.logcat p ∉ (run_app (happyEnv pidf) flag fps rps []).1 := by
  have hsel : selectPhase (happyEnv pidf) [] = ([.selectTarget], .ok ()) := rfl
  have hbody := launchBody_nopid pidf hpid fps rps [.selectTarget]
  have hmain : run_app (happyEnv pidf) flag fps rps [] =
      ([.selectTarget, .forceStop, .installApk] ++ fps.map .forward ++
        rps.map .reverse ++ [.datetime, .startApp, .logcatTail] ++
        (if flag then [.kill] else []), .err .commandError) := by
    simp only [run_app, mbind, hsel, withShutdown, hbody]
    cases flag
    · simp
    · simp only [if_true, call, happyEnv]
      simp
  refine ⟨hmain, fun p => ?_⟩
  rw [hmain]
  constructor
  · cases flag <;> simp
  · cases flag <;> simp

/-- Witness for C8: a device on which the pid never appears,
`shutdown_on_exit` set, one forward and one reverse port. -/
theorem nopid_dumps_log_and_fails_witness :
    run_app (happyEnv fun _ => none) true [8080] [9000] [] =
      ([.selectTarget, .forceStop, .installApk] ++
        [8080].map AdbCall.forward ++ [9000].map AdbCall.reverse ++
        [.datetime, .startApp, .logcatTail] ++
        (if true then [.kill] else []), .err .commandError) ∧
    ∀ p, AdbCall.streamLogs p ∉
        (run_app (happyEnv fun _ => none) true [8080] [9000] []).1 ∧
      AdbCall.logcat p ∉
        (run_app (happyEnv fun _ => none) true [8080] [9000] []).1 :=
  nopid_dumps_log_and_fails (fun _ => none)
    (resolvePid_const_none 0 pidTimeout) true [8080] [9000]

/-- C9 counterexample: the claim says the virtual device is terminated on
every outcome, including a failure during device selection.  In the code the
`try`/`finally` that performs `adb.kill()` only starts after
`select_target_device` (and emulator startup) has returned, so when
selection raises with `shutdown_on_exit` set, no `kill` is ever issued. -/
theorem shutdown_skipped_on_selection_failure :
    run_app badSelectEnv true [8080] [9000] [] =
      ([.selectTarget], .err (.callFailed .selectTarget)) ∧
    AdbCall.kill ∉ (run_app badSelectEnv true [8080] [9000] []).1 := by
  decide

/-- C9 as amended: for every outcome of the run occurring after device
selection and emulator startup have succeeded — normal completion, a
failure anywhere in the launch session (install, launch, pid resolution,
streaming, port teardown), or a cancellation surfacing in any of those
calls — if `shutdown_on_exit` is configured, the virtual device is
terminated as the final step, after all other cleanup: the trace ends with
`kill`.  A failure during device selection or emulator startup aborts
without the shutdown step. -/
theorem shutdown_last_after_selection (env : Env) (fps rps : List Nat)
    (h1 : env.ok .selectTarget = true) (h2 : env.ok .createEmulator = true)
    (h3 : env.ok .verifyAvd = true) (h4 : env.ok .startEmulator = true) :
    ∃ tr, (run_app env true fps rps []).1 = tr ++ [.kill] := by
  obtain ⟨st, hst⟩ := selectPhase_ok env h1 h2 h3 h4 []
  simp only [run_app, mbind, hst, withShutdown]
  rcases hlb : launchBody env fps rps ([] ++ st) with ⟨tr', r⟩
  cases r with
  | ok a =>
    simp only [if_true, call]
    cases henv : env.ok .kill <;> simp
  | err e =>
    simp only [if_true, call]
    cases henv : env.ok .kill <;> simp

/-- Witness for the amended C9: `adb.install_apk` raises; the emulator is
still shut down as the final step. -/
theorem shutdown_last_after_selection_witness :
    ∃ tr, (run_app failInstallEnv true [8080] [] []).1 = tr ++ [.kill] :=
  shutdown_last_after_selection failInstallEnv [8080] []
    (by decide) (by decide) (by decide) (by decide)

/-! ## Claims about the port relay scope -/

/-- C1: the claim says the port-relay scope removes every mapping it
established on every exit path of the wrapped operation.  The code does not:
`forward_ports` is a `contextlib.contextmanager` whose `yield` is not
wrapped in `try`/`finally`, so when the wrapped operation raises (exception
or cancellation), the removal loops after the `yield` never run.  This
theorem evaluates the embedding at the failing input `forward_ports=[8080]`,
`reverse_ports=[9000]`, body raising: both mappings are established, the
error propagates, and neither `forward_remove` nor `reverse_remove` is ever
called, so the mappings outlive the launch session. -/
theorem portRelay_leaks_on_exception :
    Gradle.forward_ports Gradle.allOkEnv [8080] [9000] Gradle.cancelBody [] =
      ([.forward 8080, .reverse 9000], .err .cancelled) ∧
    Gradle.AdbCall.forwardRemove 8080 ∉
      (Gradle.forward_ports Gradle.allOkEnv [8080] [9000] Gradle.cancelBody
        []).1 ∧
    Gradle.AdbCall.reverseRemove 9000 ∉
      (Gradle.forward_ports Gradle.allOkEnv [8080] [9000] Gradle.cancelBody
        []).1 := by
  decide

/-- C2: the claim says that during teardown a failure removing one mapping
does not prevent the removal attempts for the remaining ports.  The code has
no per-port exception handling: the removal loops run bare, so the first
failing `forward_remove` raises out of the generator and the remaining
removals are never attempted.  This theorem evaluates the embedding at the
failing input `forward_ports=[8080, 8081]`, `reverse_ports=[9000]`, body
completing normally, `adb.forward_remove(8080)` raising: teardown stops at
the failed call, and neither `forward_remove(8081)` nor
`reverse_remove(9000)` is attempted. -/
theorem portRelay_teardown_aborts_at_first_failure :
    Gradle.forward_ports Gradle.failRemoveEnv [8080, 8081] [9000]
        Gradle.okBody [] =
      ([.forward 8080, .forward 8081, .reverse 9000, .forwardRemove 8080],
        .err (.callFailed (.forwardRemove 8080))) ∧
    Gradle.AdbCall.forwardRemove 8081 ∉
      (Gradle.forward_ports Gradle.failRemoveEnv [8080, 8081] [9000]
        Gradle.okBody []).1 ∧
    Gradle.AdbCall.reverseRemove 9000 ∉
      (Gradle.forward_ports Gradle.failRemoveEnv [8080, 8081] [9000]
        Gradle.okBody []).1 := by
  decide

end Gradle
